import Mathlib

/-!
Verification development for the KSeF monitor client
(`KsefSyncService.runSync`, `KsefSession`, `KsefEncryption`).

The TypeScript source is embedded shallowly: every external effect
(Supabase reads/writes, the remote KSeF API, the wall clock, `process.env`)
is passed in explicitly as data, and each source function becomes a pure
Lean function over that data.  JavaScript truthiness on the optional
values the code actually branches on is modelled explicitly.
-/

/-! ## JavaScript-semantics helpers -/

/-- Truthiness of a JS string-or-undefined value (`!x` in the source):
`undefined` and the empty string are falsy. -/
def jsFalsy : Option String → Bool
  | none => true
  | some s => s == ""

/-- Truthiness-based disjunction on JS number-or-undefined values
(`a || b` in the source): `undefined` and `0` fall through to `b`. -/
def jsOrNum : Option Int → Option Int → Option Int
  | none, b => b
  | some x, b => if x == 0 then b else some x

/-- Whether `pat` is a prefix of `s` (character lists). -/
def charsStartWith : List Char → List Char → Bool
  | [], _ => true
  | _ :: _, [] => false
  | p :: ps, c :: cs => p == c && charsStartWith ps cs

/-- Whether `pat` occurs as a contiguous substring of `s` (character lists). -/
def charsInclude (pat : List Char) : List Char → Bool
  | [] => pat.isEmpty
  | c :: cs => charsStartWith pat (c :: cs) || charsInclude pat cs

/-- JS `s.includes(pat)`. -/
def strIncludes (s pat : String) : Bool := charsInclude pat.data s.data

/-! ## Data model: invoice headers and stored rows -/

/-- An invoice header as returned by the KSeF invoice query, restricted to
the fields the sync service reads (`saveInvoices`, lines 85-94 of the
orchestrator source). Optional fields model the `?.` / `||` accesses. -/
structure InvoiceHeader where
  ksefReferenceNumber : String
  invoiceReferenceNumber : String
  issuerIdentifier : Option String
  grossDiff : Option Int
  gross : Option Int
  invoicingDate : String
  acquisitionTimestamp : String
deriving DecidableEq

/-- A row of the `ksef_invoices` table, as built by `saveInvoices`. -/
structure InvoiceRow where
  reference_number : String
  invoice_number : String
  seller_nip : Option String
  buyer_nip : String
  amount_gross : Option Int
  invoice_date : String
  acquisition_timestamp : String
deriving DecidableEq

/-- The row mapping of `saveInvoices`:
`reference_number := inv.ksefReferenceNumber`, `buyer_nip := "MY_COMPANY"`,
`amount_gross := inv.grossDiff || inv.gross`, etc. -/
def toRow (inv : InvoiceHeader) : InvoiceRow :=
  ⟨inv.ksefReferenceNumber, inv.invoiceReferenceNumber, inv.issuerIdentifier,
   "MY_COMPANY", jsOrNum inv.grossDiff inv.gross, inv.invoicingDate,
   inv.acquisitionTimestamp⟩

/-- The `ksef_invoices` table, keyed by its unique `reference_number`
column: semantically a partial map from key to row. -/
def InvoiceStore := String → Option InvoiceRow

/-- One row of a Supabase `upsert` with `onConflict: reference_number`:
insert, overwriting any existing row with the same key. -/
def upsertRow (s : InvoiceStore) (r : InvoiceRow) : InvoiceStore :=
  fun k => if k = r.reference_number then some r else s k

/-- Bulk upsert of a row list, row by row. -/
def upsertRows (s : InvoiceStore) (rs : List InvoiceRow) : InvoiceStore :=
  rs.foldl upsertRow s

/-- Effect of `KsefSyncService.saveInvoices` on the `ksef_invoices` table:
map each header to a row and bulk-upsert keyed by `reference_number`. -/
def saveInvoices (s : InvoiceStore) (invs : List InvoiceHeader) : InvoiceStore :=
  upsertRows s (invs.map toRow)

/-- The last row in `rs` whose `reference_number` equals `k`, if any:
the row that wins a sequential upsert of `rs`. -/
def lastRowFor (rs : List InvoiceRow) (k : String) : Option InvoiceRow :=
  match rs with
  | [] => none
  | r :: rest =>
    match lastRowFor rest k with
    | some v => some v
    | none => if k = r.reference_number then some r else none

/-! ## The sync orchestrator (`KsefSyncService.runSync`) -/

/-- Milliseconds in one day; `d.setDate(d.getDate() - 1)` subtracts this
under a fixed-offset clock (the deployment runtime runs UTC). -/
def msPerDay : Int := 86400000

/-- Outcome of the single invoice-query HTTP call made by
`KsefSession.fetchInvoices`: either a response body whose
`invoiceHeaderList` field may be absent, or a thrown error whose message
is the normalized string built by `KsefSession.call`. -/
inductive FetchOutcome where
  | ok (invoiceHeaderList : Option (List InvoiceHeader))
  | err (msg : String)

/-- Error-handling layer of `KsefSession.fetchInvoices`: a successful
response yields `data.invoiceHeaderList || []`; a thrown error whose
message contains `"21104"` (the KSeF no-matching-results code) yields
`[]`; any other error is rethrown. -/
def fetchInvoicesResult : FetchOutcome → Except String (List InvoiceHeader)
  | .ok hl => .ok (hl.getD [])
  | .err m => if strIncludes m "21104" then .ok [] else .error m

/-- The mutable external state `runSync` touches: the `last_sync` row of
`ksef_state` and the `ksef_invoices` table. -/
structure DbState where
  watermark : Option Int
  invoices : InvoiceStore

/-- Everything the environment supplies to one `runSync` cycle: env vars,
the two `new Date()` readings, and the outcomes of the external calls. -/
structure SyncWorld where
  wmReadFails : Bool
  tDefault : Int
  tNow : Int
  nip : Option String
  token : Option String
  ksefEnv : Option String
  publicKeyEnv : Option String
  authOutcome : Except String String
  fetchServer : Int → Int → FetchOutcome
  saveFails : Bool

/-- Errors `runSync` can throw, by source site. -/
inductive SyncError where
  | missingCredentials
  | authFailed (msg : String)
  | fetchFailed (msg : String)
deriving DecidableEq

/-- The value `runSync` returns on success
(`{synced_at, new_invoices_count, invoices}`). -/
structure SyncResult where
  synced_at : Int
  new_invoices_count : Nat
  invoices : List InvoiceHeader
deriving DecidableEq

/-- Observable external calls made during one cycle: watermark reads,
`initSession` attempts, invoice-query windows issued, and invoice-store
write attempts. -/
structure SyncTrace where
  wmReads : Nat
  authCalls : Nat
  fetchCalls : List (Int × Int)
  storeWrites : Nat
deriving DecidableEq

/-- The `getLastSyncDate` helper: read the `last_sync` row; on a read
error or an absent row, default to one day before a fresh clock reading
(`w.tDefault`), else return the stored timestamp. -/
def getLastSyncDate (st : DbState) (w : SyncWorld) : Int :=
  if w.wmReadFails then w.tDefault - msPerDay
  else
    match st.watermark with
    | none => w.tDefault - msPerDay
    | some t => t

/-- The `runSync` cycle: read watermark, capture `now`, check credentials,
log in, fetch the window `[lastSyncDate, now)`, save non-empty results
(a failed save is only logged), then write the watermark and return. -/
def runSync (st : DbState) (w : SyncWorld) :
    Except SyncError SyncResult × DbState × SyncTrace :=
  let lastSyncDate := getLastSyncDate st w
  let now := w.tNow
  if jsFalsy w.nip || jsFalsy w.token then
    (.error .missingCredentials, st, ⟨1, 0, [], 0⟩)
  else
    match w.authOutcome with
    | .error m => (.error (.authFailed m), st, ⟨1, 1, [], 0⟩)
    | .ok _sessionToken =>
      match fetchInvoicesResult (w.fetchServer lastSyncDate now) with
      | .error m => (.error (.fetchFailed m), st, ⟨1, 1, [(lastSyncDate, now)], 0⟩)
      | .ok invoices =>
        let storeAfter : InvoiceStore :=
          if invoices.length > 0 then
            (if w.saveFails then st.invoices else saveInvoices st.invoices invoices)
          else st.invoices
        let writes : Nat := if invoices.length > 0 then 1 else 0
        (.ok ⟨now, invoices.length, invoices⟩, ⟨some now, storeAfter⟩,
         ⟨1, 1, [(lastSyncDate, now)], writes⟩)

/-! ## The protocol client (`KsefSession`) -/

/-- The `KSEF_ENV` record of `KsefSession.ts` viewed as a JS object: a
property-name lookup that is `undefined` off its three keys. -/
def KSEF_ENV_BASE : String → Option String
  | "TEST" => some "https://api-test.ksef.mf.gov.pl"
  | "DEMO" => some "https://api-demo.ksef.mf.gov.pl"
  | "PROD" => some "https://api.ksef.mf.gov.pl"
  | _ => none

/-- The JS value actually passed for the constructor parameter `env`
(typed `KsefEnvName` in the source, but JS enforces nothing). -/
inductive JsCtorArg where
  | undef
  | boolVal (b : Bool)
  | strVal (s : String)

/-- The property key the constructor ends up indexing `KSEF_ENV` with:
the default `'DEMO'` applies only to `undefined`; any other value is
coerced to a property key (a boolean becomes `"true"`/`"false"`). -/
def envParamKey : JsCtorArg → String
  | .undef => "DEMO"
  | .boolVal b => if b then "true" else "false"
  | .strVal s => s

/-- `this.baseUrl = KSEF_ENV[env]` in the `KsefSession` constructor. -/
def ksefSessionBaseUrl (envArg : JsCtorArg) : Option String :=
  KSEF_ENV_BASE (envParamKey envArg)

/-- The orchestrator's environment selection:
`const isProd = process.env.KSEF_ENV === 'PROD'`. -/
def orchestratorIsProd (ksefEnvVar : Option String) : Bool :=
  ksefEnvVar == some "PROD"

/-- The base URL of the session the orchestrator constructs:
`new KsefSession(isProd)` passes the boolean itself. -/
def orchestratorBaseUrl (ksefEnvVar : Option String) : Option String :=
  ksefSessionBaseUrl (.boolVal (orchestratorIsProd ksefEnvVar))

/-- Models the remote invoice-query endpoint's pagination (spec section 6):
the server slices the headers it holds for the window into pages of
`pageSize`, returning page `pageOffset`. -/
def serverWindowPage (window : List InvoiceHeader)
    (pageSize pageOffset : Nat) : List InvoiceHeader :=
  (window.drop (pageOffset * pageSize)).take pageSize

/-- Content layer of `KsefSession.fetchInvoices`: the client issues
exactly one call, with `pageSize=100&pageOffset=0` fixed in the URL, and
returns that response's `invoiceHeaderList || []`; there is no loop over
further pages. -/
def fetchInvoicesPage (window : List InvoiceHeader) : List InvoiceHeader :=
  (some (serverWindowPage window 100 0)).getD []

/-- Shape of the challenge-endpoint response body as read by
`getChallenge`: each field may be absent (and is falsy when empty). -/
structure ChallengeResponseData where
  timestamp : Option String
  challenge : Option String
deriving DecidableEq

/-- The challenge value `getChallenge` returns. -/
structure AuthChallenge where
  timestamp : String
  challenge : String
deriving DecidableEq

/-- Response handling of `KsefSession.getChallenge`: throw
`Invalid challenge response` when `!data.timestamp || !data.challenge`,
else return `{timestamp, challenge}`. -/
def getChallenge (data : ChallengeResponseData) : Except String AuthChallenge :=
  match data.timestamp, data.challenge with
  | some t, some c =>
    if t == "" || c == "" then .error "Invalid challenge response"
    else .ok ⟨t, c⟩
  | _, _ => .error "Invalid challenge response"

/-! ## The token encryptor (`KsefEncryption.encryptToken`)

The source builds `token + "|" + challengeTimestamp`, UTF-8 encodes it
(`Buffer.from(message, 'utf-8')`), encrypts with
`crypto.publicEncrypt` under `RSA_PKCS1_PADDING`, and base64-encodes the
result.  The RSA/PKCS#1 v1.5 primitive itself lives in Node's crypto
library and is embedded here by its mathematical definition: random
nonzero padding bytes are taken as an explicit argument, and textbook
RSA is modular exponentiation over big-endian byte strings. -/

/-- UTF-8 encoding of one code point (the standard 1-4 byte scheme). -/
def utf8EncodeChar (c : Nat) : List Nat :=
  if c < 128 then [c]
  else if c < 2048 then [192 + c / 64, 128 + c % 64]
  else if c < 65536 then [224 + c / 4096, 128 + c / 64 % 64, 128 + c % 64]
  else [240 + c / 262144, 128 + c / 4096 % 64, 128 + c / 64 % 64, 128 + c % 64]

/-- UTF-8 encoding of a string (`Buffer.from(s, 'utf-8')` as byte values). -/
def utf8Encode (s : String) : List Nat :=
  (s.data.map (fun c => utf8EncodeChar c.toNat)).flatten

/-- UTF-8 decoding, one byte per step: the state is `none` at a code
point boundary and `some (k, acc)` while `k` more continuation bytes are
expected for the partially accumulated code point `acc`. -/
def utf8DecodeAux : List Nat → Option (Nat × Nat) → Option (List Nat)
  | [], none => some []
  | [], some _ => none
  | b :: bs, none =>
    if b < 128 then (utf8DecodeAux bs none).map (fun cs => b :: cs)
    else if b < 192 then none
    else if b < 224 then utf8DecodeAux bs (some (1, b - 192))
    else if b < 240 then utf8DecodeAux bs (some (2, b - 224))
    else utf8DecodeAux bs (some (3, b - 240))
  | b :: bs, some (k, acc) =>
    if k ≤ 1 then (utf8DecodeAux bs none).map (fun cs => (acc * 64 + (b - 128)) :: cs)
    else utf8DecodeAux bs (some (k - 1, acc * 64 + (b - 128)))

/-- UTF-8 decoding back to code points (left inverse of the encoder). -/
def utf8Decode (bs : List Nat) : Option (List Nat) := utf8DecodeAux bs none

/-- UTF-8 decoding to a string. -/
def utf8DecodeString (bs : List Nat) : Option String :=
  (utf8Decode bs).map (fun cs => ⟨cs.map Char.ofNat⟩)

/-- The base64 alphabet. -/
def b64Alphabet : List Char :=
  "ABCDEFGHIJKLMNOPQRSTUVWXYZabcdefghijklmnopqrstuvwxyz0123456789+/".data

/-- Character for a 6-bit value. -/
def b64Char (i : Nat) : Char := b64Alphabet.getD i 'A'

/-- 6-bit value for a character, if it is in the alphabet. -/
def b64Index (c : Char) : Option Nat := List.indexOf? c b64Alphabet

/-- Standard base64 of a byte list (`buffer.toString('base64')`):
groups of three bytes become four characters, with trailing groups
padded by the pad character. -/
def base64EncodeBytes : List Nat → List Char
  | [] => []
  | [b0] => [b64Char (b0 / 4), b64Char (b0 % 4 * 16), '=', '=']
  | [b0, b1] =>
    [b64Char (b0 / 4), b64Char (b0 % 4 * 16 + b1 / 16), b64Char (b1 % 16 * 4), '=']
  | b0 :: b1 :: b2 :: rest =>
    b64Char (b0 / 4) :: b64Char (b0 % 4 * 16 + b1 / 16) ::
    b64Char (b1 % 16 * 4 + b2 / 64) :: b64Char (b2 % 64) :: base64EncodeBytes rest

/-- Base64 of a byte list, as a string. -/
def base64Encode (bs : List Nat) : String := ⟨base64EncodeBytes bs⟩

/-- Base64 decoding of a character list (left inverse of the encoder). -/
def base64DecodeChars : List Char → Option (List Nat)
  | [] => some []
  | c0 :: c1 :: c2 :: c3 :: rest =>
    match b64Index c0, b64Index c1, b64Index c2, b64Index c3 with
    | some i0, some i1, some i2, some i3 =>
      match base64DecodeChars rest with
      | some ds =>
        some ((i0 * 4 + i1 / 16) :: (i1 % 16 * 16 + i2 / 4) :: (i2 % 4 * 64 + i3) :: ds)
      | none => none
    | some i0, some i1, some i2, none =>
      if c3 = '=' ∧ rest = [] then some [i0 * 4 + i1 / 16, i1 % 16 * 16 + i2 / 4]
      else none
    | some i0, some i1, none, none =>
      if c2 = '=' ∧ c3 = '=' ∧ rest = [] then some [i0 * 4 + i1 / 16] else none
    | _, _, _, _ => none
  | _ => none

/-- Base64 decoding of a string. -/
def base64Decode (s : String) : Option (List Nat) := base64DecodeChars s.data

/-- Big-endian bytes of a number, in a fixed width of `k` bytes. -/
def natToBeBytes : Nat → Nat → List Nat
  | 0, _ => []
  | k + 1, n => natToBeBytes k (n / 256) ++ [n % 256]

/-- The number denoted by a big-endian byte list. -/
def beBytesToNat (bs : List Nat) : Nat :=
  bs.foldl (fun acc b => acc * 256 + b) 0

/-- PKCS#1 v1.5 encryption padding (EME-PKCS1-v1_5): for a `k`-byte
modulus, the encryption block is `00 02 PS 00 M` with at least eight
random nonzero padding bytes `PS` (supplied here as the argument `ps`);
longer messages are rejected. -/
def pkcs1v15Pad (k : Nat) (ps msg : List Nat) : Option (List Nat) :=
  if 8 ≤ ps.length ∧ ps.length + 3 + msg.length = k then
    some ((0 :: 2 :: ps) ++ (0 :: msg))
  else none

/-- PKCS#1 v1.5 decryption unpadding: strip `00 02`, skip the nonzero
padding bytes up to the zero separator, return the message. -/
def pkcs1v15Unpad (em : List Nat) : Option (List Nat) :=
  match em with
  | b0 :: b1 :: rest =>
    if b0 = 0 ∧ b1 = 2 then
      match rest.dropWhile (fun b => b != 0) with
      | z :: msg => if z = 0 then some msg else none
      | [] => none
    else none
  | _ => none

/-- An RSA public key: modulus `n` of byte length `k`, public exponent
`e`. -/
structure RsaPubKey where
  n : Nat
  e : Nat
  k : Nat

/-- Node's `crypto.publicEncrypt` with `RSA_PKCS1_PADDING`: pad the
message into a `k`-byte block, read it as a big-endian number, raise to
`e` modulo `n`, and write the result back as `k` big-endian bytes. -/
def publicEncryptPkcs1 (key : RsaPubKey) (ps msg : List Nat) : Option (List Nat) :=
  (pkcs1v15Pad key.k ps msg).map
    (fun em => natToBeBytes key.k (beBytesToNat em ^ key.e % key.n))

/-- The `KsefEncryption.encryptToken` pipeline: build
`token + "|" + challengeTimestamp`, UTF-8 encode it, RSA-PKCS#1-v1.5
encrypt it under the public key, and base64 the ciphertext. -/
def encryptToken (token challengeTimestamp : String) (key : RsaPubKey)
    (ps : List Nat) : Option String :=
  let message := token ++ "|" ++ challengeTimestamp
  let buffer := utf8Encode message
  (publicEncryptPkcs1 key ps buffer).map base64Encode

/-- RSA-PKCS#1-v1.5 decryption with private exponent `d` (the server
side of the handshake; the mathematical inverse of the primitive, not
repository code). -/
def privateDecryptPkcs1 (n d k : Nat) (ct : List Nat) : Option (List Nat) :=
  pkcs1v15Unpad (natToBeBytes k (beBytesToNat ct ^ d % n))

/-- Full decryption of an `encryptToken` output back to the plaintext
string: base64 decode, RSA-decrypt, unpad, UTF-8 decode. -/
def decryptTokenMessage (n d k : Nat) (ciphertextB64 : String) : Option String :=
  ((base64Decode ciphertextB64).bind (privateDecryptPkcs1 n d k)).bind
    utf8DecodeString

/-! ## Concrete cycles used as witnesses and failing inputs -/

/-- A header distinct from `hdrB`, filling the first server page. -/
def hdrA : InvoiceHeader := ⟨"ref-A", "", none, none, none, "", ""⟩

/-- The 101st header in the window: on the second server page. -/
def hdrB : InvoiceHeader := ⟨"ref-B", "", none, none, none, "", ""⟩

/-- A window holding 101 invoice headers: one more than a page carries. -/
def c2Window : List InvoiceHeader := List.replicate 100 hdrA ++ [hdrB]

/-- A sample invoice header. -/
def hdr1 : InvoiceHeader :=
  ⟨"ref-1", "FV-1", some "1112223344", none, some 12300, "2024-01-02",
   "2024-01-02T10:00:00.000Z"⟩

/-- An empty invoice store. -/
def emptyStore : InvoiceStore := fun _ => none

/-- Db state with a stored watermark. -/
def st1 : DbState := ⟨some 1000, emptyStore⟩

/-- A cycle in which everything succeeds except the invoice-store write. -/
def w1 : SyncWorld :=
  ⟨false, 0, 2000, some "5265877635", some "tok", some "PROD", none,
   .ok "session", fun _ _ => .ok (some [hdr1]), true⟩

/-- A cycle with the NIP credential unset. -/
def w10 : SyncWorld :=
  ⟨false, 0, 5, none, some "tok", some "PROD", none, .ok "session",
   fun _ _ => .ok (some []), false⟩

/-- Db state with no watermark row. -/
def st9 : DbState := ⟨none, emptyStore⟩

/-- A fully successful cycle over an empty window. -/
def w9 : SyncWorld :=
  ⟨false, 86400005, 7, some "5265877635", some "tok", none, none,
   .ok "session", fun _ _ => .ok (some []), false⟩

/-- A fully successful cycle over an empty window, watermark present. -/
def w7 : SyncWorld :=
  ⟨false, 0, 2000, some "5265877635", some "tok", some "PROD", none,
   .ok "session", fun _ _ => .ok (some []), false⟩

/-- Db state for the no-results cycle. -/
def st5 : DbState := ⟨some 500, emptyStore⟩

/-- The error message thrown by the query call when the server reports the
no-matching-results service code. -/
def noResultsMsg : String :=
  "KSeF Call Failed: 400 - code 21104 exception detail (Cause: undefined)"

/-- A cycle whose invoice query throws the no-results error. -/
def w5 : SyncWorld :=
  ⟨false, 0, 900, some "5265877635", some "tok", none, none, .ok "session",
   fun _ _ => .err noResultsMsg, false⟩

/-- A small RSA key for the encryption witness: 14-byte modulus
`256 ^ 13` with exponent 1 (its matching private exponent is 1). -/
def keyW : RsaPubKey := ⟨256 ^ 13, 1, 14⟩

/-- Eight nonzero padding bytes for the encryption witness. -/
def psW : List Nat := List.replicate 8 1

/-! ## Helper lemmas on the store -/

theorem upsertRows_lookup (rs : List InvoiceRow) (s : InvoiceStore) (k : String) :
    upsertRows s rs k =
      match lastRowFor rs k with
      | some v => some v
      | none => s k := by
  induction rs generalizing s with
  | nil => rfl
  | cons r rest ih =>
    show upsertRows (upsertRow s r) rest k = _
    rw [ih]
    cases h : lastRowFor rest k with
    | some v => simp [lastRowFor, h]
    | none =>
      simp only [lastRowFor, h, upsertRow]
      by_cases hk : k = r.reference_number <;> simp [hk]

/-- Sanity check on the store model. -/
example :
    upsertRows (fun _ => none) [⟨"a", "1", none, "M", none, "", ""⟩,
      ⟨"a", "2", none, "M", none, "", ""⟩] "a" =
      some ⟨"a", "2", none, "M", none, "", ""⟩ := by decide

/-- The query windows a cycle issues: none, or exactly the one window
from the watermark (or its default) to the captured now. -/
theorem runSync_fetchCalls (st : DbState) (w : SyncWorld) :
    (runSync st w).snd.snd.fetchCalls = [] ∨
    (runSync st w).snd.snd.fetchCalls = [(getLastSyncDate st w, w.tNow)] := by
  unfold runSync
  by_cases hb : (jsFalsy w.nip || jsFalsy w.token) = true
  · simp [hb]
  · rw [Bool.not_eq_true] at hb
    cases ha : w.authOutcome with
    | error m => simp [hb, ha]
    | ok tok =>
      cases hf : fetchInvoicesResult (w.fetchServer (getLastSyncDate st w) w.tNow) with
      | error m => simp [hb, ha, hf]
      | ok invs => simp [hb, ha, hf]

/-! ## Helper lemmas: UTF-8 -/

theorem char_toNat_lt (c : Char) : c.toNat < 1114112 := by
  rcases c.valid with h | ⟨h1, h2⟩
  · exact Nat.lt_trans h (by norm_num)
  · exact h2

theorem utf8EncodeChar_lt_256 (c : Nat) (hc : c < 1114112) :
    ∀ b ∈ utf8EncodeChar c, b < 256 := by
  intro b hb
  unfold utf8EncodeChar at hb
  split_ifs at hb <;>
    simp only [List.mem_cons, List.not_mem_nil, or_false] at hb <;> omega

theorem utf8DecodeAux_cons_none (b : Nat) (bs : List Nat) :
    utf8DecodeAux (b :: bs) none =
      if b < 128 then (utf8DecodeAux bs none).map (fun cs => b :: cs)
      else if b < 192 then none
      else if b < 224 then utf8DecodeAux bs (some (1, b - 192))
      else if b < 240 then utf8DecodeAux bs (some (2, b - 224))
      else utf8DecodeAux bs (some (3, b - 240)) := rfl

theorem utf8DecodeAux_cons_some (b k acc : Nat) (bs : List Nat) :
    utf8DecodeAux (b :: bs) (some (k, acc)) =
      if k ≤ 1 then
        (utf8DecodeAux bs none).map (fun cs => (acc * 64 + (b - 128)) :: cs)
      else utf8DecodeAux bs (some (k - 1, acc * 64 + (b - 128))) := rfl

theorem utf8Decode_encodeChar (c : Nat) (hc : c < 1114112) (rest : List Nat) :
    utf8Decode (utf8EncodeChar c ++ rest) =
      (utf8Decode rest).map (fun cs => c :: cs) := by
  unfold utf8EncodeChar utf8Decode
  by_cases h1 : c < 128
  · rw [if_pos h1, List.singleton_append, utf8DecodeAux_cons_none, if_pos h1]
  · by_cases h2 : c < 2048
    · have e1 : ¬(192 + c / 64 < 128) := by omega
      have e2 : ¬(192 + c / 64 < 192) := by omega
      have e3 : 192 + c / 64 < 224 := by omega
      rw [if_neg h1, if_pos h2]
      show utf8DecodeAux ((192 + c / 64) :: (128 + c % 64) :: rest) none
        = (utf8DecodeAux rest none).map (fun cs => c :: cs)
      rw [utf8DecodeAux_cons_none, if_neg e1, if_neg e2, if_pos e3,
        utf8DecodeAux_cons_some, if_pos (by omega : (1 : Nat) ≤ 1)]
      have hv : (192 + c / 64 - 192) * 64 + (128 + c % 64 - 128) = c := by omega
      simp only [hv]
    · by_cases h3 : c < 65536
      · have e1 : ¬(224 + c / 4096 < 128) := by omega
        have e2 : ¬(224 + c / 4096 < 192) := by omega
        have e3 : ¬(224 + c / 4096 < 224) := by omega
        have e4 : 224 + c / 4096 < 240 := by omega
        rw [if_neg h1, if_neg h2, if_pos h3]
        show utf8DecodeAux ((224 + c / 4096) :: (128 + c / 64 % 64)
            :: (128 + c % 64) :: rest) none
          = (utf8DecodeAux rest none).map (fun cs => c :: cs)
        rw [utf8DecodeAux_cons_none, if_neg e1, if_neg e2, if_neg e3, if_pos e4,
          utf8DecodeAux_cons_some, if_neg (by omega : ¬((2 : Nat) ≤ 1)),
          utf8DecodeAux_cons_some, if_pos (by omega : (2 : Nat) - 1 ≤ 1)]
        have hv : ((224 + c / 4096 - 224) * 64 + (128 + c / 64 % 64 - 128)) * 64
            + (128 + c % 64 - 128) = c := by omega
        simp only [hv]
      · have e1 : ¬(240 + c / 262144 < 128) := by omega
        have e2 : ¬(240 + c / 262144 < 192) := by omega
        have e3 : ¬(240 + c / 262144 < 224) := by omega
        have e4 : ¬(240 + c / 262144 < 240) := by omega
        rw [if_neg h1, if_neg h2, if_neg h3]
        show utf8DecodeAux ((240 + c / 262144) :: (128 + c / 4096 % 64)
            :: (128 + c / 64 % 64) :: (128 + c % 64) :: rest) none
          = (utf8DecodeAux rest none).map (fun cs => c :: cs)
        rw [utf8DecodeAux_cons_none, if_neg e1, if_neg e2, if_neg e3, if_neg e4,
          utf8DecodeAux_cons_some, if_neg (by omega : ¬((3 : Nat) ≤ 1)),
          utf8DecodeAux_cons_some, if_neg (by omega : ¬((3 : Nat) - 1 ≤ 1)),
          utf8DecodeAux_cons_some, if_pos (by omega : (3 : Nat) - 1 - 1 ≤ 1)]
        have hv : (((240 + c / 262144 - 240) * 64 + (128 + c / 4096 % 64 - 128))
            * 64 + (128 + c / 64 % 64 - 128)) * 64 + (128 + c % 64 - 128) = c := by
          omega
        simp only [hv]

theorem utf8Decode_encodeList (cs : List Nat) (h : ∀ c ∈ cs, c < 1114112) :
    utf8Decode ((cs.map utf8EncodeChar).flatten) = some cs := by
  induction cs with
  | nil => rfl
  | cons c rest ih =>
    simp only [List.map_cons, List.flatten_cons]
    rw [utf8Decode_encodeChar c (h c (by simp)),
      ih (fun x hx => h x (by simp [hx]))]
    rfl

theorem utf8Encode_lt_256 (s : String) : ∀ b ∈ utf8Encode s, b < 256 := by
  intro b hb
  unfold utf8Encode at hb
  rw [List.mem_flatten] at hb
  obtain ⟨l, hl, hbl⟩ := hb
  rw [List.mem_map] at hl
  obtain ⟨ch, _, rfl⟩ := hl
  exact utf8EncodeChar_lt_256 ch.toNat (char_toNat_lt ch) b hbl

theorem utf8DecodeString_encode (s : String) :
    utf8DecodeString (utf8Encode s) = some s := by
  unfold utf8DecodeString utf8Encode
  have hmap : s.data.map (fun c => utf8EncodeChar c.toNat)
      = (s.data.map Char.toNat).map utf8EncodeChar := by
    rw [List.map_map]; rfl
  rw [hmap, utf8Decode_encodeList _ (fun c hc => by
    rw [List.mem_map] at hc
    obtain ⟨ch, _, rfl⟩ := hc
    exact char_toNat_lt ch)]
  show some (⟨(s.data.map Char.toNat).map Char.ofNat⟩ : String) = some s
  rw [List.map_map,
    show (Char.ofNat ∘ Char.toNat) = id from funext Char.ofNat_toNat,
    List.map_id]

/-! ## Helper lemmas: base64 -/

theorem b64Index_b64Char : ∀ i < 64, b64Index (b64Char i) = some i := by decide

theorem b64Index_pad : b64Index '=' = none := by decide

theorem base64DecodeChars_encode : ∀ bs : List Nat, (∀ b ∈ bs, b < 256) →
    base64DecodeChars (base64EncodeBytes bs) = some bs
  | [], _ => rfl
  | [b0], h => by
    have hb0 : b0 < 256 := h b0 (by simp)
    simp only [base64EncodeBytes, base64DecodeChars]
    rw [b64Index_b64Char _ (by omega : b0 / 4 < 64),
      b64Index_b64Char _ (by omega : b0 % 4 * 16 < 64), b64Index_pad]
    have hv : b0 / 4 * 4 + b0 % 4 * 16 / 16 = b0 := by omega
    have hv2 : b0 / 4 * 4 + b0 % 4 = b0 := by omega
    simp [hv, hv2]
  | [b0, b1], h => by
    have hb0 : b0 < 256 := h b0 (by simp)
    have hb1 : b1 < 256 := h b1 (by simp)
    simp only [base64EncodeBytes, base64DecodeChars]
    rw [b64Index_b64Char _ (by omega : b0 / 4 < 64),
      b64Index_b64Char _ (by omega : b0 % 4 * 16 + b1 / 16 < 64),
      b64Index_b64Char _ (by omega : b1 % 16 * 4 < 64), b64Index_pad]
    have hv0 : b0 / 4 * 4 + (b0 % 4 * 16 + b1 / 16) / 16 = b0 := by omega
    have hv1 : (b0 % 4 * 16 + b1 / 16) % 16 * 16 + b1 % 16 * 4 / 4 = b1 := by
      omega
    have hv1b : (b0 % 4 * 16 + b1 / 16) % 16 * 16 + b1 % 16 = b1 := by omega
    simp [hv0, hv1, hv1b]
  | b0 :: b1 :: b2 :: rest, h => by
    have hb0 : b0 < 256 := h b0 (by simp)
    have hb1 : b1 < 256 := h b1 (by simp)
    have hb2 : b2 < 256 := h b2 (by simp)
    have ih := base64DecodeChars_encode rest (fun x hx => h x (by simp [hx]))
    simp only [base64EncodeBytes, base64DecodeChars]
    rw [b64Index_b64Char _ (by omega : b0 / 4 < 64),
      b64Index_b64Char _ (by omega : b0 % 4 * 16 + b1 / 16 < 64),
      b64Index_b64Char _ (by omega : b1 % 16 * 4 + b2 / 64 < 64),
      b64Index_b64Char _ (by omega : b2 % 64 < 64), ih]
    have hv0 : b0 / 4 * 4 + (b0 % 4 * 16 + b1 / 16) / 16 = b0 := by omega
    have hv1 : (b0 % 4 * 16 + b1 / 16) % 16 * 16 + (b1 % 16 * 4 + b2 / 64) / 4
        = b1 := by omega
    have hv2 : (b1 % 16 * 4 + b2 / 64) % 4 * 64 + b2 % 64 = b2 := by omega
    simp only [hv0, hv1, hv2]

theorem base64Decode_encode (bs : List Nat) (h : ∀ b ∈ bs, b < 256) :
    base64Decode (base64Encode bs) = some bs :=
  base64DecodeChars_encode bs h

/-! ## Helper lemmas: big-endian bytes and PKCS padding -/

theorem beBytes_foldl (bs : List Nat) : ∀ a,
    bs.foldl (fun acc b => acc * 256 + b) a
      = a * 256 ^ bs.length + beBytesToNat bs := by
  induction bs with
  | nil => intro a; simp [beBytesToNat]
  | cons b bs ih =>
    intro a
    show bs.foldl _ (a * 256 + b) = _
    rw [ih (a * 256 + b)]
    have hcons : beBytesToNat (b :: bs) = b * 256 ^ bs.length + beBytesToNat bs := by
      show bs.foldl _ (0 * 256 + b) = _
      rw [ih (0 * 256 + b)]
      ring
    rw [hcons, List.length_cons]
    ring

theorem beBytesToNat_cons (b : Nat) (bs : List Nat) :
    beBytesToNat (b :: bs) = b * 256 ^ bs.length + beBytesToNat bs := by
  show bs.foldl _ (0 * 256 + b) = _
  rw [beBytes_foldl bs (0 * 256 + b)]
  ring

theorem beBytesToNat_append_singleton (xs : List Nat) (b : Nat) :
    beBytesToNat (xs ++ [b]) = beBytesToNat xs * 256 + b := by
  unfold beBytesToNat
  rw [List.foldl_append]
  rfl

theorem beBytesToNat_lt (bs : List Nat) (h : ∀ b ∈ bs, b < 256) :
    beBytesToNat bs < 256 ^ bs.length := by
  induction bs with
  | nil => simp [beBytesToNat]
  | cons b bs ih =>
    have hb : b < 256 := h b (by simp)
    have hrest := ih (fun x hx => h x (by simp [hx]))
    rw [beBytesToNat_cons, List.length_cons, pow_succ]
    have h1 : b * 256 ^ bs.length + beBytesToNat bs
        < (b + 1) * 256 ^ bs.length := by
      rw [add_mul, one_mul]
      omega
    have h2 : (b + 1) * 256 ^ bs.length ≤ 256 ^ bs.length * 256 := by
      rw [mul_comm (256 ^ bs.length) 256]
      exact Nat.mul_le_mul_right _ (by omega)
    omega

theorem natToBeBytes_mem_lt (k : Nat) : ∀ n : Nat, ∀ b ∈ natToBeBytes k n, b < 256 := by
  induction k with
  | zero => intro n b hb; simp [natToBeBytes] at hb
  | succ k ih =>
    intro n b hb
    simp only [natToBeBytes, List.mem_append, List.mem_singleton] at hb
    rcases hb with hb | hb
    · exact ih _ b hb
    · omega

theorem natToBeBytes_length (k : Nat) : ∀ n : Nat, (natToBeBytes k n).length = k := by
  induction k with
  | zero => intro n; rfl
  | succ k ih =>
    intro n
    simp [natToBeBytes, ih]

theorem beBytesToNat_natToBeBytes (k : Nat) : ∀ n : Nat,
    beBytesToNat (natToBeBytes k n) = n % 256 ^ k := by
  induction k with
  | zero => intro n; simp [natToBeBytes, beBytesToNat, Nat.mod_one]
  | succ k ih =>
    intro n
    show beBytesToNat (natToBeBytes k (n / 256) ++ [n % 256]) = _
    rw [beBytesToNat_append_singleton, ih (n / 256), pow_succ']
    rw [Nat.mod_mul]
    ring

theorem natToBeBytes_beBytesToNat (bs : List Nat) (h : ∀ b ∈ bs, b < 256) :
    natToBeBytes bs.length (beBytesToNat bs) = bs := by
  induction bs using List.reverseRecOn with
  | nil => rfl
  | append_singleton xs b ih =>
    have hb : b < 256 := h b (by simp)
    rw [beBytesToNat_append_singleton]
    have hlen : (xs ++ [b]).length = xs.length + 1 := by simp
    rw [hlen]
    show natToBeBytes xs.length ((beBytesToNat xs * 256 + b) / 256)
        ++ [(beBytesToNat xs * 256 + b) % 256] = xs ++ [b]
    have h1 : (beBytesToNat xs * 256 + b) / 256 = beBytesToNat xs := by omega
    have h2 : (beBytesToNat xs * 256 + b) % 256 = b := by omega
    rw [h1, h2, ih (fun x hx => h x (by simp [hx]))]

theorem dropWhile_nonzero (msg : List Nat) : ∀ ps : List Nat,
    (∀ b ∈ ps, b ≠ 0) →
    (ps ++ (0 :: msg)).dropWhile (fun b => b != 0) = 0 :: msg := by
  intro ps
  induction ps with
  | nil => intro _; simp [List.dropWhile]
  | cons p ps ih =>
    intro h
    have hp : p ≠ 0 := h p (by simp)
    rw [List.cons_append, List.dropWhile_cons]
    simp only [bne_iff_ne, ne_eq, hp, not_false_eq_true, if_true, ite_true]
    exact ih (fun x hx => h x (by simp [hx]))

theorem pkcs1v15Unpad_pad (ps msg : List Nat) (hps : ∀ b ∈ ps, b ≠ 0) :
    pkcs1v15Unpad ((0 :: 2 :: ps) ++ (0 :: msg)) = some msg := by
  show pkcs1v15Unpad (0 :: 2 :: (ps ++ (0 :: msg))) = some msg
  simp only [pkcs1v15Unpad]
  rw [if_pos ⟨trivial, trivial⟩, dropWhile_nonzero msg ps hps]
  rfl

/-! ## Claim theorems -/

/-- C8: persisting the same invoice header list twice produces the same
stored row set as persisting it once — the upsert keyed by
`reference_number` overwrites and never duplicates a key. -/
theorem saveInvoices_idempotent (s : InvoiceStore) (invs : List InvoiceHeader) :
    saveInvoices (saveInvoices s invs) invs = saveInvoices s invs := by
  funext k
  show upsertRows (saveInvoices s invs) (invs.map toRow) k
      = upsertRows s (invs.map toRow) k
  rw [upsertRows_lookup, upsertRows_lookup]
  cases h : lastRowFor (invs.map toRow) k with
  | some v => rfl
  | none =>
    show saveInvoices s invs k = s k
    unfold saveInvoices
    rw [upsertRows_lookup, h]

/-- Witness for C8 at a concrete store and header list. -/
theorem saveInvoices_idempotent_witness :
    saveInvoices (saveInvoices emptyStore [hdr1]) [hdr1]
      = saveInvoices emptyStore [hdr1] :=
  saveInvoices_idempotent emptyStore [hdr1]

/-- C10: with the NIP or the token credential unset, runSync throws
Missing Credentials; the watermark row and the invoice store are left
unchanged, the watermark was read, and no authentication request,
invoice query, or store write was made. -/
theorem runSync_missing_credentials (st : DbState) (w : SyncWorld)
    (h : jsFalsy w.nip = true ∨ jsFalsy w.token = true) :
    runSync st w = (.error .missingCredentials, st, ⟨1, 0, [], 0⟩) := by
  unfold runSync
  rcases h with h | h <;> simp [h]

/-- Witness for C10: a concrete cycle with the NIP unset. -/
theorem runSync_missing_credentials_witness :
    runSync st1 w10 = (.error .missingCredentials, st1, ⟨1, 0, [], 0⟩) :=
  runSync_missing_credentials st1 w10 (Or.inl rfl)

/-- C9: when the watermark row is absent or unreadable, the cycle's lower
query bound defaults to one day before the clock reading taken at the
watermark read, and any query the cycle then issues uses that default as
its lower bound. -/
theorem getLastSyncDate_default (st : DbState) (w : SyncWorld)
    (h : st.watermark = none ∨ w.wmReadFails = true) :
    getLastSyncDate st w = w.tDefault - msPerDay ∧
    ((runSync st w).snd.snd.fetchCalls = [] ∨
     (runSync st w).snd.snd.fetchCalls = [(w.tDefault - msPerDay, w.tNow)]) := by
  have h1 : getLastSyncDate st w = w.tDefault - msPerDay := by
    rcases h with h | h
    · by_cases hw : w.wmReadFails <;> simp [getLastSyncDate, h, hw]
    · simp [getLastSyncDate, h]
  exact ⟨h1, h1 ▸ runSync_fetchCalls st w⟩

/-- Witness for C9: a concrete cycle with no watermark row. -/
theorem getLastSyncDate_default_witness :
    getLastSyncDate st9 w9 = w9.tDefault - msPerDay ∧
    ((runSync st9 w9).snd.snd.fetchCalls = [] ∨
     (runSync st9 w9).snd.snd.fetchCalls = [(w9.tDefault - msPerDay, w9.tNow)]) :=
  getLastSyncDate_default st9 w9 (Or.inl rfl)

/-- C7: a successful cycle writes as the new watermark exactly the now
captured at cycle start, which is also the upper bound of the single
query window it issued and the synced_at of its result. -/
theorem runSync_success_uses_captured_now (st : DbState) (w : SyncWorld)
    (r : SyncResult) (h : (runSync st w).fst = .ok r) :
    (runSync st w).snd.fst.watermark = some w.tNow ∧
    r.synced_at = w.tNow ∧
    (runSync st w).snd.snd.fetchCalls = [(getLastSyncDate st w, w.tNow)] := by
  by_cases hb : (jsFalsy w.nip || jsFalsy w.token) = true
  · simp [runSync, hb] at h
  · rw [Bool.not_eq_true] at hb
    cases ha : w.authOutcome with
    | error m => simp [runSync, hb, ha] at h
    | ok tok =>
      cases hf : fetchInvoicesResult (w.fetchServer (getLastSyncDate st w) w.tNow) with
      | error m => simp [runSync, hb, ha, hf] at h
      | ok invs =>
        simp only [runSync, hb, ha, hf] at h ⊢
        simp only [Bool.false_eq_true, if_false] at h ⊢
        rw [Except.ok.injEq] at h
        subst h
        simp

/-- Witness for C7: a concrete successful cycle. -/
theorem runSync_success_uses_captured_now_witness :
    (runSync st1 w7).snd.fst.watermark = some w7.tNow ∧
    (⟨2000, 0, []⟩ : SyncResult).synced_at = w7.tNow ∧
    (runSync st1 w7).snd.snd.fetchCalls = [(getLastSyncDate st1 w7, w7.tNow)] :=
  runSync_success_uses_captured_now st1 w7 ⟨2000, 0, []⟩ rfl

/-- C5: when the invoice query throws the no-matching-results error
(message containing the 21104 service code), the cycle succeeds with
zero new invoices and still advances the watermark; any other query
error propagates and leaves the state untouched. -/
theorem runSync_no_results_empty (st : DbState) (w : SyncWorld) (m tok : String)
    (hn : jsFalsy w.nip = false) (ht : jsFalsy w.token = false)
    (ha : w.authOutcome = .ok tok)
    (hf : w.fetchServer (getLastSyncDate st w) w.tNow = .err m) :
    (strIncludes m "21104" = true →
      runSync st w = (.ok ⟨w.tNow, 0, []⟩, ⟨some w.tNow, st.invoices⟩,
        ⟨1, 1, [(getLastSyncDate st w, w.tNow)], 0⟩)) ∧
    (strIncludes m "21104" = false →
      runSync st w = (.error (.fetchFailed m), st,
        ⟨1, 1, [(getLastSyncDate st w, w.tNow)], 0⟩)) := by
  constructor <;> intro hm <;>
    simp [runSync, fetchInvoicesResult, hn, ht, ha, hf, hm]

/-- Witness for C5: a concrete cycle whose query reports code 21104. -/
theorem runSync_no_results_empty_witness :
    (strIncludes noResultsMsg "21104" = true →
      runSync st5 w5 = (.ok ⟨900, 0, []⟩, ⟨some 900, st5.invoices⟩,
        ⟨1, 1, [(500, 900)], 0⟩)) ∧
    (strIncludes noResultsMsg "21104" = false →
      runSync st5 w5 = (.error (.fetchFailed noResultsMsg), st5,
        ⟨1, 1, [(500, 900)], 0⟩)) :=
  runSync_no_results_empty st5 w5 noResultsMsg "session" rfl rfl rfl rfl

/-- C2 counterexample: with 101 headers in the window, the single
`pageSize=100&pageOffset=0` query loses the 101st header — it is in the
window but not in the returned sequence. -/
theorem fetchInvoices_loses_second_page :
    hdrB ∈ c2Window ∧ hdrB ∉ fetchInvoicesPage c2Window ∧
    c2Window.length = 101 ∧ (fetchInvoicesPage c2Window).length = 100 := by
  decide

/-- C2 amended: fetchInvoices issues exactly one fixed-size query at page
offset 0 and returns precisely the first 100 headers of the window, in
server order; headers beyond the first page are never fetched. -/
theorem fetchInvoices_returns_first_page (window : List InvoiceHeader) :
    fetchInvoicesPage window = window.take 100 := by
  simp [fetchInvoicesPage, serverWindowPage]

/-- Witness for the amended C2 at the concrete 101-header window. -/
theorem fetchInvoices_returns_first_page_witness :
    fetchInvoicesPage c2Window = c2Window.take 100 :=
  fetchInvoices_returns_first_page c2Window

/-- C3 (evaluated at the failing input): the orchestrator passes the
boolean `isProd` where the constructor expects an environment name, so
`KSEF_ENV[env]` indexes the key `"true"`/`"false"` and the session's base
URL is undefined for every `KSEF_ENV` setting — while the constructor,
given one of the three declared names (or `undefined`, which defaults to
DEMO), does yield the fixed endpoints. -/
theorem orchestratorBaseUrl_is_undefined :
    orchestratorBaseUrl (some "PROD") = none ∧
    orchestratorBaseUrl (some "TEST") = none ∧
    orchestratorBaseUrl none = none ∧
    ksefSessionBaseUrl (.strVal "PROD") = some "https://api.ksef.mf.gov.pl" ∧
    ksefSessionBaseUrl (.strVal "TEST") = some "https://api-test.ksef.mf.gov.pl" ∧
    ksefSessionBaseUrl (.strVal "DEMO") = some "https://api-demo.ksef.mf.gov.pl" ∧
    ksefSessionBaseUrl .undef = some "https://api-demo.ksef.mf.gov.pl" := by
  decide

/-- C4 counterexample: a response carrying a timestamp but no challenge
value contains one of the two fields, yet getChallenge still fails with
the invalid-response error — refuting the claim that at least one
present field avoids the failure. -/
theorem getChallenge_rejects_missing_challenge_only :
    getChallenge ⟨some "2024-01-01T00:00:00.000Z", none⟩ =
      .error "Invalid challenge response" ∧
    (⟨some "2024-01-01T00:00:00.000Z", none⟩ : ChallengeResponseData).timestamp
      ≠ none :=
  ⟨rfl, by decide⟩

/-- C4 amended: getChallenge fails with the invalid-response error exactly
when at least one of the two fields is missing or empty (falsy); when
both are present and non-empty it returns them as the challenge pair. -/
theorem getChallenge_error_iff (d : ChallengeResponseData) :
    (getChallenge d = .error "Invalid challenge response" ↔
      jsFalsy d.timestamp = true ∨ jsFalsy d.challenge = true) ∧
    (jsFalsy d.timestamp = false → jsFalsy d.challenge = false →
      getChallenge d = .ok ⟨d.timestamp.getD "", d.challenge.getD ""⟩) := by
  obtain ⟨ot, oc⟩ := d
  cases ot with
  | none => cases oc <;> simp [getChallenge, jsFalsy]
  | some t =>
    cases oc with
    | none => simp [getChallenge, jsFalsy]
    | some c =>
      simp only [getChallenge, jsFalsy, Option.getD_some]
      by_cases ht : t == ""
      · simp [ht]
      · by_cases hc : c == "" <;> simp [ht, hc]

/-- Witness for the amended C4 at a well-formed concrete response. -/
theorem getChallenge_error_iff_witness :
    (getChallenge ⟨some "ts-1", some "ch-1"⟩ = .error "Invalid challenge response" ↔
      jsFalsy (some "ts-1") = true ∨ jsFalsy (some "ch-1") = true) ∧
    (jsFalsy (some "ts-1") = false → jsFalsy (some "ch-1") = false →
      getChallenge ⟨some "ts-1", some "ch-1"⟩ = .ok ⟨"ts-1", "ch-1"⟩) :=
  getChallenge_error_iff ⟨some "ts-1", some "ch-1"⟩

/-- C1 (failing part, evaluated at the failing input): in cycle w1 the
invoice-store write fails, yet runSync still reports success, advances
the watermark from 1000 to the captured now 2000, and leaves the fetched
row unstored — the failed save is only logged, never rethrown. -/
theorem runSync_advances_watermark_despite_failed_save :
    w1.saveFails = true ∧
    (runSync st1 w1).fst = .ok ⟨2000, 1, [hdr1]⟩ ∧
    st1.watermark = some 1000 ∧
    (runSync st1 w1).snd.fst.watermark = some 2000 ∧
    (runSync st1 w1).snd.fst.invoices "ref-1" = none ∧
    (runSync st1 w1).snd.snd.storeWrites = 1 :=
  ⟨rfl, rfl, rfl, rfl, rfl, rfl⟩


/-- C6: encryptToken encrypts exactly the UTF-8 byte encoding of
`secret | timestamp` (literal bar separator) under RSA with PKCS#1 v1.5
padding and returns the base64-encoded ciphertext; decrypting with the
matching private exponent recovers exactly the concatenated message. -/
theorem encryptToken_pkcs1_roundtrip (token ts : String) (key : RsaPubKey)
    (d : Nat) (ps : List Nat)
    (hinv : ∀ m < key.n, (m ^ key.e % key.n) ^ d % key.n = m)
    (hn1 : 256 ^ (key.k - 1) ≤ key.n) (hn2 : key.n < 256 ^ key.k)
    (hps : ∀ b ∈ ps, 0 < b ∧ b < 256)
    (hps8 : 8 ≤ ps.length)
    (hlen : ps.length + 3 + (utf8Encode (token ++ "|" ++ ts)).length = key.k) :
    encryptToken token ts key ps =
      some (base64Encode (natToBeBytes key.k
        (beBytesToNat ((0 :: 2 :: ps) ++ (0 :: utf8Encode (token ++ "|" ++ ts)))
          ^ key.e % key.n))) ∧
    (encryptToken token ts key ps).bind (decryptTokenMessage key.n d key.k) =
      some (token ++ "|" ++ ts) := by
  have hpad : pkcs1v15Pad key.k ps (utf8Encode (token ++ "|" ++ ts))
      = some ((0 :: 2 :: ps) ++ (0 :: utf8Encode (token ++ "|" ++ ts))) := by
    unfold pkcs1v15Pad
    rw [if_pos ⟨hps8, hlen⟩]
  have henc : encryptToken token ts key ps =
      some (base64Encode (natToBeBytes key.k
        (beBytesToNat ((0 :: 2 :: ps) ++ (0 :: utf8Encode (token ++ "|" ++ ts)))
          ^ key.e % key.n))) := by
    unfold encryptToken publicEncryptPkcs1
    show Option.map base64Encode
        (Option.map (fun em => natToBeBytes key.k (beBytesToNat em ^ key.e % key.n))
          (pkcs1v15Pad key.k ps (utf8Encode (token ++ "|" ++ ts)))) = _
    rw [hpad]
    rfl
  have hmsgbytes : ∀ b ∈ utf8Encode (token ++ "|" ++ ts), b < 256 :=
    utf8Encode_lt_256 _
  have hembytes : ∀ b ∈ (0 :: 2 :: ps) ++ (0 :: utf8Encode (token ++ "|" ++ ts)),
      b < 256 := by
    intro b hb
    simp only [List.cons_append, List.mem_cons, List.mem_append] at hb
    rcases hb with rfl | rfl | hb | rfl | hb
    · omega
    · omega
    · exact (hps b hb).2
    · omega
    · exact hmsgbytes b hb
  have hemlen : ((0 :: 2 :: ps) ++ (0 :: utf8Encode (token ++ "|" ++ ts))).length
      = key.k := by
    simp only [List.length_append, List.length_cons]
    omega
  have hnpos : 0 < key.n :=
    lt_of_lt_of_le (pow_pos (by norm_num) (key.k - 1)) hn1
  have hMlt : beBytesToNat ((0 :: 2 :: ps)
      ++ (0 :: utf8Encode (token ++ "|" ++ ts))) < key.n := by
    have h0 : (0 :: 2 :: ps) ++ (0 :: utf8Encode (token ++ "|" ++ ts))
        = 0 :: ((2 :: ps) ++ (0 :: utf8Encode (token ++ "|" ++ ts))) := by
      simp [List.cons_append]
    have htail : ∀ b ∈ (2 :: ps) ++ (0 :: utf8Encode (token ++ "|" ++ ts)),
        b < 256 := by
      intro b hb
      apply hembytes
      rw [h0]
      exact List.mem_cons_of_mem _ hb
    have hlt := beBytesToNat_lt _ htail
    have hlen2 : ((2 :: ps) ++ (0 :: utf8Encode (token ++ "|" ++ ts))).length
        = key.k - 1 := by
      have := hemlen
      rw [h0] at this
      simp only [List.length_cons] at this
      omega
    rw [hlen2] at hlt
    rw [h0, beBytesToNat_cons, zero_mul, zero_add]
    exact lt_of_lt_of_le hlt hn1
  refine ⟨henc, ?_⟩
  rw [henc]
  show decryptTokenMessage key.n d key.k (base64Encode (natToBeBytes key.k
      (beBytesToNat ((0 :: 2 :: ps) ++ (0 :: utf8Encode (token ++ "|" ++ ts)))
        ^ key.e % key.n))) = some (token ++ "|" ++ ts)
  unfold decryptTokenMessage
  rw [base64Decode_encode _ (natToBeBytes_mem_lt key.k _)]
  show (privateDecryptPkcs1 key.n d key.k (natToBeBytes key.k
      (beBytesToNat ((0 :: 2 :: ps) ++ (0 :: utf8Encode (token ++ "|" ++ ts)))
        ^ key.e % key.n))).bind utf8DecodeString = some (token ++ "|" ++ ts)
  unfold privateDecryptPkcs1
  rw [beBytesToNat_natToBeBytes key.k
    (beBytesToNat ((0 :: 2 :: ps) ++ (0 :: utf8Encode (token ++ "|" ++ ts)))
      ^ key.e % key.n)]
  rw [Nat.mod_eq_of_lt (lt_trans (Nat.mod_lt _ hnpos) hn2)]
  rw [hinv _ hMlt]
  have hback : natToBeBytes key.k
      (beBytesToNat ((0 :: 2 :: ps) ++ (0 :: utf8Encode (token ++ "|" ++ ts))))
      = (0 :: 2 :: ps) ++ (0 :: utf8Encode (token ++ "|" ++ ts)) := by
    have h := natToBeBytes_beBytesToNat
      ((0 :: 2 :: ps) ++ (0 :: utf8Encode (token ++ "|" ++ ts))) hembytes
    rw [hemlen] at h
    exact h
  rw [hback]
  rw [pkcs1v15Unpad_pad ps (utf8Encode (token ++ "|" ++ ts))
    (fun b hb => (hps b hb).1.ne')]
  show utf8DecodeString (utf8Encode (token ++ "|" ++ ts))
    = some (token ++ "|" ++ ts)
  exact utf8DecodeString_encode (token ++ "|" ++ ts)

/-- Witness for C6 at a concrete secret, timestamp, key, and padding. -/
theorem encryptToken_pkcs1_roundtrip_witness :
    encryptToken "a" "b" keyW psW =
      some (base64Encode (natToBeBytes keyW.k
        (beBytesToNat ((0 :: 2 :: psW) ++ (0 :: utf8Encode ("a" ++ "|" ++ "b")))
          ^ keyW.e % keyW.n))) ∧
    (encryptToken "a" "b" keyW psW).bind (decryptTokenMessage keyW.n 1 keyW.k) =
      some ("a" ++ "|" ++ "b") :=
  encryptToken_pkcs1_roundtrip "a" "b" keyW 1 psW
    (fun m hm => by
      show (m ^ 1 % keyW.n) ^ 1 % keyW.n = m
      simp [Nat.mod_eq_of_lt hm])
    (le_refl _) (by norm_num [keyW]) (by decide) (by decide) (by decide)
